import Mathlib

set_option maxRecDepth 100000

/-!
Verification of the batched stock-ingestion pipeline of the audio-form-stock
repository (Fastify backend, `StockService.updateStocks` and its collaborators
`PolygonService.*`).

The TypeScript code is shallowly embedded as executable Lean definitions:

* Calendar dates ("YYYY-MM-DD" strings in the source) are modelled as natural
  day numbers, with the convention that `d % 7 = 0` is a Sunday and
  `d % 7 = 6` is a Saturday (the `Date.getDay()` weekend checks
  `getDay() === 0 || getDay() === 6` of the source).
* Prices are modelled as rationals (`ℚ`), faithful to the comparisons and
  arithmetic the source performs on them.
* The MongoDB `stocks` collection is a list of documents keyed by symbol; the
  `update_history` collection is a list of checkpoint rows, newest first
  (the source reads the most recent row by sorting `lastUpdateTime`
  descending, and only ever inserts rows at the current wall-clock time).
* External effects (the Polygon provider, the wall clock, random jitter, and
  availability of the checkpoint store) are an explicit environment `Env`.
  Provider calls, performed sleeps and store writes are returned as an
  explicit trace so that "performs no provider calls / no writes" claims are
  statable.
-/

namespace StockPipeline

/-! ## Generic helpers -/

/-- First-occurrence deduplication, the behaviour of the source's
`[...new Set([...nasdaq100, ...sp500Top200, ...dowJones30])]`. -/
def dedupKeepFirst (seen : List String) : List String → List String
  | [] => []
  | x :: xs =>
    if seen.contains x then dedupKeepFirst seen xs
    else x :: dedupKeepFirst (x :: seen) xs

/-- Substring test on character lists (used for the source's
`error.message.includes(...)` checks). -/
def charListHasSub (needle : List Char) : List Char → Bool
  | [] => needle.isEmpty
  | c :: rest => List.isPrefixOf needle (c :: rest) || charListHasSub needle rest

/-- `strContains hay needle` models JavaScript's `hay.includes(needle)`. -/
def strContains (hay needle : String) : Bool :=
  charListHasSub needle.toList hay.toList

/-- JavaScript `Array.prototype.slice(a, b)` for `0 ≤ a ≤ b` (indices clamp to
the array length; an empty slice results when `b ≤ a` or `a ≥ length`). -/
def listSlice (l : List String) (a b : Nat) : List String :=
  (l.drop a).take (b - a)

/-! ## Symbol universe (`StockService.getTargetSymbols`) -/

def nasdaq100 : List String :=
  ["AAPL", "MSFT", "GOOGL", "AMZN", "TSLA", "META", "NVDA", "NFLX", "ADBE", "CRM",
    "PYPL", "INTC", "CMCSA", "PEP", "COST", "TMUS", "AVGO", "TXN", "QCOM", "CHTR",
    "SBUX", "INTU", "ISRG", "GILD", "MDLZ", "BKNG", "ADP", "VRTX", "REGN", "CSX",
    "AMAT", "AMD", "ATVI", "ADSK", "ILMN", "LRCX", "MU", "AMGN", "BIIB", "FISV",
    "CTAS", "KLAC", "SNPS", "MCHP", "CDNS", "CTSH", "WBA", "EXC", "AEP", "SO",
    "DUK", "D", "EXPE", "PAYX", "ORLY", "ROST", "DXCM", "IDXX", "SIRI", "CHKP",
    "VRSN", "NTES", "MRNA", "BIDU", "ALGN", "CPRT", "FAST", "VRSK", "ANSS", "CTXS",
    "WLTW", "XEL", "ILMN", "MELI", "TEAM", "ZM", "DOCU", "CRWD", "OKTA", "SNOW",
    "PLTR", "ROKU", "PTON", "ZOOM", "SQ", "SHOP", "TWLO", "SPOT", "UBER", "LYFT"]

def sp500Top200 : List String :=
  ["JNJ", "JPM", "V", "PG", "UNH", "HD", "MA", "DIS", "BAC", "XOM",
    "T", "PFE", "ABT", "VZ", "KO", "MRK", "TMO", "WMT", "ABBV", "ACN",
    "NKE", "CVX", "DHR", "TXN", "NEE", "LLY", "UNP", "PM", "HON", "IBM",
    "SPGI", "RTX", "LOW", "TGT", "ISRG", "GILD", "MDLZ", "BKNG", "ADP", "VRTX",
    "REGN", "CSX", "AMAT", "AMD", "ATVI", "ADSK", "ILMN", "LRCX", "MU", "BIIB",
    "FISV", "CTAS", "KLAC", "SNPS", "MCHP", "CDNS", "CTSH", "WBA", "EXC", "AEP",
    "SO", "DUK", "D", "EXPE", "PAYX", "ORLY", "ROST", "DXCM", "IDXX", "SIRI",
    "CHKP", "VRSN", "NTES", "MRNA", "BIDU", "ALGN", "CPRT", "FAST", "VRSK", "ANSS",
    "CTXS", "WLTW", "XEL", "MELI", "TEAM", "ZM", "DOCU", "CRWD", "OKTA", "SNOW",
    "PLTR", "ROKU", "PTON", "ZOOM", "SQ", "SHOP", "TWLO", "SPOT", "UBER", "LYFT"]

def dowJones30 : List String :=
  ["AAPL", "MSFT", "UNH", "JNJ", "V", "JPM", "PG", "HD", "MA", "DIS",
    "BAC", "XOM", "T", "PFE", "ABT", "VZ", "KO", "MRK", "TMO", "WMT",
    "ABBV", "ACN", "NKE", "CVX", "DHR", "ADBE"]

/-- `StockService.getTargetSymbols`: union of the three index lists,
deduplicated preserving first-seen order, truncated to 330 entries. -/
def getTargetSymbols : List String :=
  (dedupKeepFirst [] (nasdaq100 ++ sp500Top200 ++ dowJones30)).take 330

/-! ## Batch planning (`StockService.calculateBatchInfo`) -/

structure BatchUpdateInfo where
  batchNumber : Nat
  totalBatches : Nat
  startIndex : Nat
  endIndex : Nat
  symbols : List String
deriving DecidableEq

/-- `StockService.calculateBatchInfo`: `BATCH_SIZE = 8`,
`startIndex = (batchNumber - 1) * 8`, `endIndex = min(startIndex + 8, 330)`. -/
def calculateBatchInfo (batchNumber totalBatches : Nat) : BatchUpdateInfo :=
  { batchNumber := batchNumber
    totalBatches := totalBatches
    startIndex := (batchNumber - 1) * 8
    endIndex := min ((batchNumber - 1) * 8 + 8) 330
    symbols := [] }

/-- The symbols a batch actually processes:
`targetSymbols.slice(batchInfo.startIndex, batchInfo.endIndex)` in
`StockService.updateStocks`. -/
def plannedBatchSymbols (batchNumber totalBatches : Nat) : List String :=
  listSlice getTargetSymbols (calculateBatchInfo batchNumber totalBatches).startIndex
    (calculateBatchInfo batchNumber totalBatches).endIndex

/-! ## Calendar model (`PolygonService` date helpers)

Dates are day numbers; `d % 7 = 0` is Sunday, `d % 7 = 6` is Saturday. -/

/-- `checkDate.getDay() === 0 || checkDate.getDay() === 6`. -/
def isWeekend (d : Nat) : Bool :=
  d % 7 == 0 || d % 7 == 6

/-- Fuel-bounded forward walk used by `getNextAvailableTradingDay`'s
`while` loop (the loop moves at most two days, across one weekend). -/
def skipWeekendFwd : Nat → Nat → Nat
  | 0, d => d
  | fuel + 1, d => if isWeekend d then skipWeekendFwd fuel (d + 1) else d

/-- Fuel-bounded backward walk used by the `while` loops of
`getOriginalMostRecentTradingDay` and `getOriginalMonthlyComparisonDate`. -/
def skipWeekendBack : Nat → Nat → Nat
  | 0, d => d
  | fuel + 1, d => if isWeekend d then skipWeekendBack fuel (d - 1) else d

/-- `PolygonService.getNextAvailableTradingDay`: start from the next day and
walk forward past Saturday/Sunday. -/
def getNextAvailableTradingDay (afterDate : Nat) : Nat :=
  skipWeekendFwd 7 (afterDate + 1)

/-- `PolygonService.getOriginalMostRecentTradingDay`: two days back from
today, then walk backward past the weekend. -/
def getOriginalMostRecentTradingDay (today : Nat) : Nat :=
  skipWeekendBack 7 (today - 2)

/-- `PolygonService.getOriginalMonthlyComparisonDate`: thirty days back from
today, then walk backward past the weekend. -/
def getOriginalMonthlyComparisonDate (today : Nat) : Nat :=
  skipWeekendBack 7 (today - 30)

/-- One row of the `update_history` collection
(`PolygonService.saveUpdateInfo` inserts exactly these fields). -/
structure UpdateInfo where
  lastUpdateDate : Nat
  lastMonthlyDate : Nat
  lastUpdateTime : Nat
  totalUpdates : Nat
deriving DecidableEq

/-! ## Provider data model (`PolygonService`) -/

/-- The fields of a Polygon ticker-details object the pipeline reads.
`market_cap` is optional in the provider schema. -/
structure TickerDetails where
  ticker : String
  name : String
  locale : String
  market_cap : Option ℚ
deriving DecidableEq

/-- The fields of a Polygon daily open/close object the pipeline reads;
every field may be absent in the provider response (the source defaults each
with `|| 0`). The `open` field is `openPrice` (`open` is a Lean keyword). -/
structure Bar where
  openPrice : Option ℚ
  close : Option ℚ
  high : Option ℚ
  low : Option ℚ
  volume : Option ℚ
deriving DecidableEq

/-- Outcome of one provider HTTP call as the `PolygonService` wrappers expose
it: a 2xx payload, a 404 mapped to `null`, or a thrown error carrying a
message (`getDailyData` / `getTickerDetails` rethrow every non-404 failure). -/
inductive FetchResult (α : Type) where
  | ok : α → FetchResult α
  | notFound : FetchResult α
  | err : String → FetchResult α
deriving DecidableEq

/-- The external world of one `updateStocks` run: provider behaviour, the
wall clock, random jitter, availability of the checkpoint store, and whether
the pre-loop market-status/timezone logging (external `TimezoneUtils`/Intl
calls at the top of the `try` block) raises. Everything the source reads
from outside its own state. -/
structure Env where
  /-- `PolygonService.getTickerDetails` per symbol: payload, 404→null, or throw. -/
  tickerDetails : String → FetchResult TickerDetails
  /-- `PolygonService.getDailyData` per (symbol, date): payload, 404→null, or throw. -/
  dailyData : String → Nat → FetchResult Bar
  /-- When `some msg`: the pre-loop `logTimezoneInfo`/`shouldUpdateData`
  external calls raise `msg` inside the `try` block, before any symbol is
  processed (the only throw site outside the per-symbol `try`). -/
  planThrow : Option String
  /-- `fastify.mongo.db` is available for the `update_history` collection
  (collapses the three null-guards of `saveUpdateInfo`). -/
  historyDbAvailable : Bool
  /-- `createIndex`/`insertOne` on `update_history` raises (caught and
  logged by `saveUpdateInfo`'s catch-all). -/
  historyInsertFails : Bool
  /-- Today's day number (`new Date()`). -/
  now : Nat
  /-- `Math.random() * 5000 + 2000` jitter of `StockService.calculateAdaptiveDelay`,
  per loop index. -/
  jitterA : Nat → ℚ
  /-- `Math.random() * 1500 + 500` jitter of `PolygonService.calculateAdaptiveDelay`,
  per loop index. -/
  jitterB : Nat → ℚ

/-! ## Date selection (`PolygonService.getMostRecentTradingDay` and
`getMonthlyComparisonDate`) -/

/-- `PolygonService.getLastUpdateInfo`: most recent `update_history` row by
`lastUpdateTime` descending (the head of our newest-first list), `none` when
the store is unreachable (its `catch`) or empty. -/
def getLastUpdateInfo (env : Env) (history : List UpdateInfo) : Option UpdateInfo :=
  if env.historyDbAvailable then history.head? else none

/-- `PolygonService.getMostRecentTradingDay`: if the latest checkpoint's
`lastUpdateDate` is today or yesterday, shift forward to the next available
trading day after it; otherwise fall back to the original logic. -/
def getMostRecentTradingDay (env : Env) (history : List UpdateInfo) : Nat :=
  match getLastUpdateInfo env history with
  | some lastUpdate =>
    if lastUpdate.lastUpdateDate = env.now ∨ lastUpdate.lastUpdateDate = env.now - 1 then
      getNextAvailableTradingDay lastUpdate.lastUpdateDate
    else
      getOriginalMostRecentTradingDay env.now
  | none => getOriginalMostRecentTradingDay env.now

/-- `PolygonService.getMonthlyComparisonDate`: if the latest checkpoint's
`lastMonthlyDate` is within the last thirty days, shift forward to the next
available trading day after it; otherwise fall back to the original logic. -/
def getMonthlyComparisonDate (env : Env) (history : List UpdateInfo) : Nat :=
  match getLastUpdateInfo env history with
  | some lastUpdate =>
    if env.now - 30 ≤ lastUpdate.lastMonthlyDate then
      getNextAvailableTradingDay lastUpdate.lastMonthlyDate
    else
      getOriginalMonthlyComparisonDate env.now
  | none => getOriginalMonthlyComparisonDate env.now

/-- `PolygonService.saveUpdateInfo`: append one checkpoint row; every failure
(missing database handle, index creation or insert raising) is swallowed and
leaves the collection unchanged. -/
def saveUpdateInfo (env : Env) (history : List UpdateInfo)
    (currentDate monthlyDate : Nat) : List UpdateInfo :=
  if env.historyDbAvailable = false then history
  else if env.historyInsertFails then history
  else { lastUpdateDate := currentDate, lastMonthlyDate := monthlyDate,
         lastUpdateTime := env.now, totalUpdates := 1 } :: history

/-! ## Conversion (`PolygonService.convertToStockData`) -/

/-- One row of the `stocks` collection as the pipeline writes it. -/
structure StockData where
  symbol : String
  name : String
  country : String
  marketCap : ℚ
  price : ℚ
  changes : ℚ
  changesPercentage : ℚ
  monthlyChanges : ℚ
  monthlyChangesPercentage : ℚ
  indexes : List String
  lastUpdated : Nat
deriving DecidableEq

/-- `PolygonService.determineCountry`. -/
def determineCountry (ticker : TickerDetails) : String :=
  match ticker.locale with
  | "us" => "United States"
  | "ca" => "Canada"
  | "uk" => "United Kingdom"
  | "eu" => "Europe"
  | "asia" => "Asia"
  | "au" => "Australia"
  | _ => "Unknown"

/-- `PolygonService.determineIndexes`: classification by market cap; the
source's `ticker.market_cap && ticker.market_cap > threshold` treats a
missing or zero market cap as falsy. -/
def determineIndexes (ticker : TickerDetails) : List String :=
  match ticker.market_cap with
  | some cap =>
    if cap ≠ 0 ∧ 10000000000 < cap then ["Large Cap"]
    else if cap ≠ 0 ∧ 2000000000 < cap then ["Mid Cap"]
    else ["Small Cap"]
  | none => ["Small Cap"]

/-- `PolygonService.convertToStockData`: derives price, daily and monthly
change fields; percentages are zero when the base is not positive. -/
def convertToStockData (ticker : TickerDetails) (dailyData monthlyData : Option Bar)
    (now : Nat) : StockData :=
  let price := (dailyData.bind Bar.close).getD 0
  let previousClose := (dailyData.bind Bar.openPrice).getD 0
  let changes := price - previousClose
  let changesPercentage := if 0 < previousClose then changes / previousClose * 100 else 0
  let monthlyPrice := (monthlyData.bind Bar.close).getD 0
  let monthlyChanges := price - monthlyPrice
  let monthlyChangesPercentage :=
    if 0 < monthlyPrice then monthlyChanges / monthlyPrice * 100 else 0
  { symbol := ticker.ticker
    name := ticker.name
    country := determineCountry ticker
    marketCap := ticker.market_cap.getD 0
    price := price
    changes := changes
    changesPercentage := changesPercentage
    monthlyChanges := monthlyChanges
    monthlyChangesPercentage := monthlyChangesPercentage
    indexes := determineIndexes ticker
    lastUpdated := now }

/-! ## The `stocks` collection and `StockService.upsertStock` -/

/-- A document of the `stocks` collection: the stock data plus the
`createdAt` (`$setOnInsert`) and `updatedAt` (`$set`) bookkeeping fields. -/
structure StockDoc where
  data : StockData
  createdAt : Nat
  updatedAt : Nat
deriving DecidableEq

/-- `findOne({ symbol: stockData.symbol })` on the `stocks` collection. -/
def lookupStock (db : List StockDoc) (symbol : String) : Option StockDoc :=
  db.find? (fun d => d.data.symbol == symbol)

/-- `updateOne({symbol}, {$set: {...stockData, updatedAt: now},
$setOnInsert: {createdAt: now}}, {upsert: true})`: replace the first document
with this symbol, keeping its `createdAt`; insert when none matches. -/
def updateOneUpsert (db : List StockDoc) (stockData : StockData) (now : Nat) :
    List StockDoc :=
  match db with
  | [] => [{ data := stockData, createdAt := now, updatedAt := now }]
  | d :: rest =>
    if d.data.symbol == stockData.symbol then
      { data := stockData, createdAt := d.createdAt, updatedAt := now } :: rest
    else
      d :: updateOneUpsert rest stockData now

/-- `StockService.upsertStock` together with whether a write was performed:
an incoming record is dropped when it would overwrite an existing positive
price with a non-positive one, and also whenever its own price is not
positive. -/
def upsertStockCore (db : List StockDoc) (stockData : StockData) (now : Nat) :
    List StockDoc × Bool :=
  match lookupStock db stockData.symbol with
  | some existingStock =>
    if 0 < existingStock.data.price ∧ stockData.price ≤ 0 then (db, false)
    else if stockData.price ≤ 0 then (db, false)
    else (updateOneUpsert db stockData now, true)
  | none =>
    if stockData.price ≤ 0 then (db, false)
    else (updateOneUpsert db stockData now, true)

/-- `StockService.upsertStock`: the resulting `stocks` collection. -/
def upsertStock (db : List StockDoc) (stockData : StockData) (now : Nat) :
    List StockDoc :=
  (upsertStockCore db stockData now).1

/-! ## Rate-limit delays -/

/-- `StockService.calculateAdaptiveDelay`: 30 s base, more for later batches
and late in a batch, plus the random jitter passed in (2–7 s in the source). -/
def calculateAdaptiveDelay (batchNumber currentIndex totalInBatch : Nat)
    (jitter : ℚ) : Nat :=
  let base : ℚ := 30000
  let base := if 10 < batchNumber then base + 15000
    else if 5 < batchNumber then base + 10000 else base
  let progressInBatch : ℚ := (currentIndex : ℚ) / (totalInBatch : ℚ)
  let base := if (0.8 : ℚ) < progressInBatch then base + 10000
    else if (0.5 : ℚ) < progressInBatch then base + 5000 else base
  (base + jitter).floor.toNat

/-- `PolygonService.calculateAdaptiveDelay`: 18 s base, more late in the
batch, plus the random jitter passed in (0.5–2 s in the source). -/
def polygonCalculateAdaptiveDelay (currentIndex totalSymbols : Nat)
    (jitter : ℚ) : Nat :=
  let base : ℚ := 18000
  let progress : ℚ := (currentIndex : ℚ) / (totalSymbols : ℚ)
  let base := if (0.8 : ℚ) < progress then base + 3000
    else if (0.6 : ℚ) < progress then base + 2000 else base
  (base + jitter).floor.toNat

/-! ## `PolygonService.getTickersBatch` -/

/-- Loop of `getTickersBatch`: one `getTickerDetails` call per non-empty
symbol; a thrown call is caught and skipped (no inter-request delay), a null
result is skipped, a payload is kept; between calls (except after the last
symbol and after a throw) the adaptive delay runs. Returns the kept details,
the number of provider calls, and the performed sleeps. -/
def getTickersBatchGo (env : Env) (total : Nat) :
    Nat → List String → List TickerDetails × Nat × List Nat
  | _, [] => ([], 0, [])
  | i, symbol :: rest =>
    if symbol = "" then getTickersBatchGo env total (i + 1) rest
    else
      let restOut := getTickersBatchGo env total (i + 1) rest
      let sleeps := if i < total - 1
        then [polygonCalculateAdaptiveDelay i total (env.jitterB i)] else []
      match env.tickerDetails symbol with
      | .ok d => (d :: restOut.1, restOut.2.1 + 1, sleeps ++ restOut.2.2)
      | .notFound => (restOut.1, restOut.2.1 + 1, sleeps ++ restOut.2.2)
      | .err _ => (restOut.1, restOut.2.1 + 1, restOut.2.2)

/-- `PolygonService.getTickersBatch`. -/
def getTickersBatch (env : Env) (symbols : List String) :
    List TickerDetails × Nat × List Nat :=
  getTickersBatchGo env symbols.length 0 symbols

/-! ## The per-symbol loop of `StockService.updateStocks` -/

/-- State threaded through the per-symbol loop: the two collections, the
accumulators of the source (`errors`, `processed`), and the observable trace
(stock-write count, provider-call count, performed sleeps). -/
structure LoopState where
  stocks : List StockDoc
  history : List UpdateInfo
  errors : List String
  processed : Nat
  writes : Nat
  providerCalls : Nat
  sleeps : List Nat
deriving DecidableEq

def kw403 : String := "403"
def kwNotAuthorized : String := "NOT_AUTHORIZED"
def kw429 : String := "429"
def kwTooManyRequests : String := "Too Many Requests"
def kw404 : String := "404"
def rateLimitSuffix : String := ": Rate limit exceeded"
def errSep : String := ": "

/-- The per-symbol `catch` of `updateStocks`: 403/NOT_AUTHORIZED and 404 are
skipped silently; 429/Too Many Requests sleeps the fixed 30 s cooldown and
records one soft error; anything else records one hard error. The loop
always continues. -/
def handleSymbolError (st : LoopState) (tickerSymbol msg : String) : LoopState :=
  if strContains msg kw403 || strContains msg kwNotAuthorized then st
  else if strContains msg kw429 || strContains msg kwTooManyRequests then
    { st with
      sleeps := st.sleeps ++ [30000]
      errors := st.errors ++ [tickerSymbol ++ rateLimitSuffix] }
  else if strContains msg kw404 then st
  else { st with errors := st.errors ++ [tickerSymbol ++ errSep ++ msg] }

/-- The `currentData ? {open: currentData.open || 0, ...} : {open: 0, ...}`
normalisation of the fetched current-day bar. -/
def normalizeBar : Option Bar → Bar
  | some b => { openPrice := some (b.openPrice.getD 0), close := some (b.close.getD 0),
                high := some (b.high.getD 0), low := some (b.low.getD 0),
                volume := some (b.volume.getD 0) }
  | none => { openPrice := some 0, close := some 0, high := some 0, low := some 0,
              volume := some 0 }

/-- The `{ close: monthlyClosePrice }` object passed for the monthly bar. -/
def monthlyOnlyBar (monthlyClosePrice : ℚ) : Bar :=
  { openPrice := none, close := some monthlyClosePrice, high := none, low := none,
    volume := none }

/-- Tail of one loop iteration after both daily bars were fetched without a
throw: validate the current close, convert, upsert, count, and sleep the
adaptive delay. A non-positive current close skips the symbol. -/
def processValidated (env : Env) (batchNumber i totalInBatch : Nat) (st : LoopState)
    (ticker : TickerDetails) (currentData monthlyData : Option Bar) : LoopState :=
  let currentTickerData := normalizeBar currentData
  let monthlyClosePrice := (monthlyData.bind Bar.close).getD 0
  if currentTickerData.close.getD 0 ≤ 0 then st
  else
    let stockData := convertToStockData ticker (some currentTickerData)
      (some (monthlyOnlyBar monthlyClosePrice)) env.now
    let upserted := upsertStockCore st.stocks stockData env.now
    let delayTime := calculateAdaptiveDelay batchNumber i totalInBatch (env.jitterA i)
    { st with
      stocks := upserted.1
      writes := st.writes + (if upserted.2 then 1 else 0)
      processed := st.processed + 1
      sleeps := st.sleeps ++ (if 0 < delayTime then [delayTime] else []) }

/-- Tail of one loop iteration after the current-day fetch did not throw:
sleep the fixed 30 s between the two requests, fetch the monthly bar, then
validate and persist. A throw on the monthly fetch goes to the per-symbol
error handler. -/
def processAfterCurrent (env : Env) (batchNumber i totalInBatch : Nat) (st : LoopState)
    (ticker : TickerDetails) (currentData : Option Bar) (monthlyDate : Nat) : LoopState :=
  let st := { st with
    sleeps := st.sleeps ++ [30000]
    providerCalls := st.providerCalls + 1 }
  match env.dailyData ticker.ticker monthlyDate with
  | .err msg => handleSymbolError st ticker.ticker msg
  | .ok bar => processValidated env batchNumber i totalInBatch st ticker currentData (some bar)
  | .notFound => processValidated env batchNumber i totalInBatch st ticker currentData none

/-- One iteration of the per-symbol loop of `updateStocks`: skip a ticker
with no symbol, compute the two dates, fetch the current-day bar (a throw
goes to the per-symbol error handler), then continue with the monthly bar. -/
def processOneSymbol (env : Env) (batchNumber i totalInBatch : Nat) (st : LoopState)
    (ticker : TickerDetails) : LoopState :=
  if ticker.ticker = "" then st
  else
    let currentDate := getMostRecentTradingDay env st.history
    let monthlyDate := getMonthlyComparisonDate env st.history
    let st1 := { st with providerCalls := st.providerCalls + 1 }
    match env.dailyData ticker.ticker currentDate with
    | .err msg => handleSymbolError st1 ticker.ticker msg
    | .ok bar => processAfterCurrent env batchNumber i totalInBatch st1 ticker (some bar) monthlyDate
    | .notFound => processAfterCurrent env batchNumber i totalInBatch st1 ticker none monthlyDate

/-- The whole per-symbol loop. -/
def processSymbols (env : Env) (batchNumber totalInBatch : Nat) :
    Nat → List TickerDetails → LoopState → LoopState
  | _, [], st => st
  | i, ticker :: rest, st =>
    processSymbols env batchNumber totalInBatch (i + 1) rest
      (processOneSymbol env batchNumber i totalInBatch st ticker)

/-! ## `StockService.updateStocks` -/

/-- The service state across calls: the in-flight batch set
(`processingBatches`) and the two collections. -/
structure ServiceState where
  processingBatches : List Nat
  stocks : List StockDoc
  history : List UpdateInfo
deriving DecidableEq

/-- The `StockUpdateResponse` returned by `updateStocks` (`nextBatch` is an
optional field of the source interface). -/
structure StockUpdateResponse where
  success : Bool
  message : String
  processed : Nat
  nextBatch : Option Nat
  totalBatches : Nat
  errors : List String
deriving DecidableEq

/-- A run either returns a response or propagates a thrown error. -/
inductive RunResult where
  | ok : StockUpdateResponse → RunResult
  | thrown : String → RunResult
deriving DecidableEq

/-- Everything observable about one `updateStocks` invocation: its result,
the service state afterwards, and the provider-call / write / sleep trace. -/
structure RunOutcome where
  result : RunResult
  final : ServiceState
  providerCalls : Nat
  writes : Nat
  sleeps : List Nat
deriving DecidableEq

def alreadyProcessingMsg (batchNumber : Nat) : String :=
  s!"Batch {batchNumber} is already processing"

def noSymbolsMsg : String := "No symbols to process in this batch"

def processedMsg (batchNumber totalBatches : Nat) : String :=
  s!"Processed batch {batchNumber} of {totalBatches}"

/-- `StockService.updateStocks`. The `finally` block removes `batchNumber`
from the in-flight set on every exit path of the `try`; the already-in-flight
early return never enters the `try` and leaves the state untouched. The
`forceUpdate` flag only affects logging in the source. -/
def updateStocks (env : Env) (st : ServiceState)
    (batchNumber totalBatches : Nat) (forceUpdate : Bool) : RunOutcome :=
  if st.processingBatches.contains batchNumber then
    { result := .ok { success := true, message := alreadyProcessingMsg batchNumber,
                      processed := 0, nextBatch := none, totalBatches := totalBatches,
                      errors := [] }
      final := st
      providerCalls := 0
      writes := 0
      sleeps := [] }
  else
    let processing := batchNumber :: st.processingBatches
    let finalSet := processing.erase batchNumber
    let batchInfo := calculateBatchInfo batchNumber totalBatches
    match env.planThrow with
    | some msg =>
      { result := .thrown msg
        final := { st with processingBatches := finalSet }
        providerCalls := 0
        writes := 0
        sleeps := [] }
    | none =>
      let batchSymbols := listSlice getTargetSymbols batchInfo.startIndex batchInfo.endIndex
      if batchSymbols.isEmpty then
        { result := .ok { success := true, message := noSymbolsMsg, processed := 0,
                          nextBatch := none, totalBatches := totalBatches, errors := [] }
          final := { st with processingBatches := finalSet }
          providerCalls := 0
          writes := 0
          sleeps := [] }
      else
        let fetched := getTickersBatch env batchSymbols
        let polygonTickers := fetched.1
        let ls0 : LoopState := { stocks := st.stocks
                                 history := st.history
                                 errors := []
                                 processed := 0
                                 writes := 0
                                 providerCalls := fetched.2.1
                                 sleeps := fetched.2.2 }
        let ls := processSymbols env batchNumber polygonTickers.length 0 polygonTickers ls0
        let history2 := if 0 < ls.processed then
            saveUpdateInfo env ls.history (getMostRecentTradingDay env ls.history)
              (getMonthlyComparisonDate env ls.history)
          else ls.history
        { result := .ok { success := true
                          message := processedMsg batchNumber totalBatches
                          processed := ls.processed
                          nextBatch := if batchNumber < totalBatches
                            then some (batchNumber + 1) else none
                          totalBatches := totalBatches
                          errors := ls.errors }
          final := { processingBatches := finalSet
                     stocks := ls.stocks
                     history := history2 }
          providerCalls := ls.providerCalls
          writes := ls.writes
          sleeps := ls.sleeps }

/-! ## Concrete sample data used by witnesses and counterexamples -/

def aaplSym : String := "AAPL"

def tickerAAPL : TickerDetails :=
  { ticker := aaplSym, name := aaplSym, locale := "us", market_cap := some 3000000000000 }

def goodBar : Bar :=
  { openPrice := some 100, close := some 150, high := some 151, low := some 99,
    volume := some 5 }

/-- A benign environment: AAPL resolves, its current-day bar (day 96 when
`now = 100` and the history is empty) is `goodBar`, every other daily bar is
a 404; the checkpoint store works; nothing throws before the loop. -/
def envBase : Env :=
  { tickerDetails := fun s => if s = aaplSym then .ok tickerAAPL else .notFound
    dailyData := fun _ d => if d = 96 then .ok goodBar else .notFound
    planThrow := none
    historyDbAvailable := true
    historyInsertFails := false
    now := 100
    jitterA := fun _ => 2500
    jitterB := fun _ => 600 }

def st0 : ServiceState := { processingBatches := [], stocks := [], history := [] }

def aaplStored : StockData :=
  { symbol := aaplSym, name := aaplSym, country := "United States"
    marketCap := 3000000000000, price := 150, changes := 50
    changesPercentage := 50, monthlyChanges := 150, monthlyChangesPercentage := 0
    indexes := ["Large Cap"], lastUpdated := 100 }

def zeroIncoming : StockData :=
  { symbol := aaplSym, name := aaplSym, country := "United States"
    marketCap := 3000000000000, price := 0, changes := 0
    changesPercentage := 0, monthlyChanges := 0, monthlyChangesPercentage := 0
    indexes := ["Large Cap"], lastUpdated := 101 }

def dbW : List StockDoc := [{ data := aaplStored, createdAt := 90, updatedAt := 100 }]

/-! ## C1 / C10: `upsertStock` never destroys valid data -/

/-- C1: if the `stocks` collection already holds a record for the incoming
symbol with a positive price and the incoming data has a non-positive price,
`upsertStock` leaves the collection — in particular the stored record —
unchanged: the write is silently dropped. -/
theorem upsertStock_keeps_positive_record (db : List StockDoc) (doc : StockDoc)
    (stockData : StockData) (now : Nat)
    (hfind : lookupStock db stockData.symbol = some doc)
    (hpos : 0 < doc.data.price) (hinc : stockData.price ≤ 0) :
    upsertStock db stockData now = db ∧
      lookupStock (upsertStock db stockData now) stockData.symbol = some doc := by
  have h1 : upsertStock db stockData now = db := by
    unfold upsertStock upsertStockCore
    rw [hfind]
    dsimp only
    rw [if_pos (show 0 < doc.data.price ∧ stockData.price ≤ 0 from ⟨hpos, hinc⟩)]
  exact ⟨h1, by rw [h1, hfind]⟩

/-- Witness for C1 at a concrete store and incoming record. -/
theorem upsertStock_keeps_positive_record_witness :
    lookupStock dbW zeroIncoming.symbol = some { data := aaplStored, createdAt := 90, updatedAt := 100 } ∧
      (0 : ℚ) < aaplStored.price ∧ zeroIncoming.price ≤ 0 ∧
      (upsertStock dbW zeroIncoming 101 = dbW ∧
        lookupStock (upsertStock dbW zeroIncoming 101) zeroIncoming.symbol =
          some { data := aaplStored, createdAt := 90, updatedAt := 100 }) :=
  ⟨by decide, by decide, by decide,
    upsertStock_keeps_positive_record dbW _ zeroIncoming 101 (by decide) (by decide) (by decide)⟩

/-- C10: an incoming record with a non-positive price performs no write at
all — the `stocks` collection is identical afterwards, whether or not a
record for the symbol already exists. -/
theorem upsertStock_nonpositive_noop (db : List StockDoc) (stockData : StockData)
    (now : Nat) (hinc : stockData.price ≤ 0) :
    upsertStock db stockData now = db := by
  unfold upsertStock upsertStockCore
  cases hf : lookupStock db stockData.symbol with
  | some e =>
    by_cases h2 : 0 < e.data.price ∧ stockData.price ≤ 0 <;> simp [h2, hinc]
  | none => simp [hinc]

/-- Witness for C10 on an empty store: no record is created. -/
theorem upsertStock_nonpositive_noop_witness :
    zeroIncoming.price ≤ 0 ∧ upsertStock [] zeroIncoming 101 = [] :=
  ⟨by decide, upsertStock_nonpositive_noop [] zeroIncoming 101 (by decide)⟩

/-! ## C2 / C3: the in-flight batch set -/

/-- C2: calling `updateStocks` while `batchNumber` is already in the
in-flight set returns immediately with `success = true`, `processed = 0`,
the "already processing" message and no errors; no provider call, no sleep
and no write happens, and the whole service state — the in-flight set
included — is untouched. -/
theorem updateStocks_already_processing (env : Env) (st : ServiceState)
    (batchNumber totalBatches : Nat) (forceUpdate : Bool)
    (h : st.processingBatches.contains batchNumber = true) :
    updateStocks env st batchNumber totalBatches forceUpdate =
      { result := .ok { success := true, message := alreadyProcessingMsg batchNumber,
                        processed := 0, nextBatch := none, totalBatches := totalBatches,
                        errors := [] }
        final := st
        providerCalls := 0
        writes := 0
        sleeps := [] } := by
  unfold updateStocks
  rw [h]
  simp

/-- Witness for C2: batch 3 is in flight. -/
theorem updateStocks_already_processing_witness :
    ({ processingBatches := [3], stocks := [], history := [] } :
        ServiceState).processingBatches.contains 3 = true ∧
      updateStocks envBase { processingBatches := [3], stocks := [], history := [] } 3 16 false =
        { result := .ok { success := true, message := alreadyProcessingMsg 3,
                          processed := 0, nextBatch := none, totalBatches := 16,
                          errors := [] }
          final := { processingBatches := [3], stocks := [], history := [] }
          providerCalls := 0
          writes := 0
          sleeps := [] } :=
  ⟨by decide,
    updateStocks_already_processing envBase
      { processingBatches := [3], stocks := [], history := [] } 3 16 false (by decide)⟩

/-- C3: a run that enters (batch not in flight) removes `batchNumber` from
the in-flight set on every termination path — the pre-loop throw, the
empty-batch early return and the normal return all leave the set exactly as
it was, without `batchNumber`. -/
theorem updateStocks_releases_batch (env : Env) (st : ServiceState)
    (batchNumber totalBatches : Nat) (forceUpdate : Bool)
    (h : st.processingBatches.contains batchNumber = false) :
    (updateStocks env st batchNumber totalBatches forceUpdate).final.processingBatches =
        st.processingBatches ∧
      (updateStocks env st batchNumber totalBatches forceUpdate).final.processingBatches.contains
        batchNumber = false := by
  have hrel : (updateStocks env st batchNumber totalBatches forceUpdate).final.processingBatches =
      st.processingBatches := by
    unfold updateStocks
    rw [h]
    cases env.planThrow with
    | some msg => simp
    | none =>
      by_cases he : (listSlice getTargetSymbols
          (calculateBatchInfo batchNumber totalBatches).startIndex
          (calculateBatchInfo batchNumber totalBatches).endIndex).isEmpty <;>
        simp [he]
  exact ⟨hrel, by rw [hrel]; exact h⟩

/-- Witness for C3 on the exception path: the pre-loop external calls throw,
and the batch is still released. -/
theorem updateStocks_releases_batch_witness :
    (st0.processingBatches.contains 2 = false) ∧
      ((updateStocks { envBase with planThrow := some "boom" } st0 2 16 false).final.processingBatches =
          st0.processingBatches ∧
        (updateStocks { envBase with planThrow := some "boom" } st0 2 16
            false).final.processingBatches.contains 2 = false) :=
  ⟨by decide,
    updateStocks_releases_batch { envBase with planThrow := some "boom" } st0 2 16 false
      (by decide)⟩

/-! ## C5: an empty planned slice is a successful no-op -/

/-- C5: when the planned slice is empty (the batch start index is at or past
the end of the symbol universe), a run that enters returns `success = true`,
`processed = 0`, no errors and no `nextBatch`, without any provider call,
sleep or write, and with the service state unchanged. -/
theorem updateStocks_empty_batch (env : Env) (st : ServiceState)
    (batchNumber totalBatches : Nat) (forceUpdate : Bool)
    (hin : st.processingBatches.contains batchNumber = false)
    (hplan : env.planThrow = none)
    (hb : getTargetSymbols.length ≤ (calculateBatchInfo batchNumber totalBatches).startIndex) :
    updateStocks env st batchNumber totalBatches forceUpdate =
      { result := .ok { success := true, message := noSymbolsMsg, processed := 0,
                        nextBatch := none, totalBatches := totalBatches, errors := [] }
        final := st
        providerCalls := 0
        writes := 0
        sleeps := [] } := by
  have hslice : listSlice getTargetSymbols
      (calculateBatchInfo batchNumber totalBatches).startIndex
      (calculateBatchInfo batchNumber totalBatches).endIndex = [] := by
    unfold listSlice
    rw [List.drop_eq_nil_of_le hb]
    simp
  unfold updateStocks
  rw [hin, hplan]
  dsimp only
  rw [hslice]
  simp [List.erase_cons_head]

/-- Witness for C5: batch 17 of 16 starts at index 128, past the 122-symbol
universe. -/
theorem updateStocks_empty_batch_witness :
    (st0.processingBatches.contains 17 = false) ∧ envBase.planThrow = none ∧
      getTargetSymbols.length ≤ (calculateBatchInfo 17 16).startIndex ∧
      updateStocks envBase st0 17 16 false =
        { result := .ok { success := true, message := noSymbolsMsg, processed := 0,
                          nextBatch := none, totalBatches := 16, errors := [] }
          final := st0
          providerCalls := 0
          writes := 0
          sleeps := [] } :=
  ⟨by decide, rfl, by decide,
    updateStocks_empty_batch envBase st0 17 16 false (by decide) rfl (by decide)⟩

/-! ## Loop bookkeeping: every processed symbol is a persisted write -/

lemma handleSymbolError_counts (st : LoopState) (sym m : String) :
    (handleSymbolError st sym m).processed = st.processed ∧
      (handleSymbolError st sym m).writes = st.writes ∧
      (handleSymbolError st sym m).stocks = st.stocks ∧
      (handleSymbolError st sym m).history = st.history := by
  unfold handleSymbolError
  split_ifs <;> exact ⟨rfl, rfl, rfl, rfl⟩

lemma upsertStockCore_writes_true (db : List StockDoc) (s : StockData) (now : Nat)
    (h : 0 < s.price) : (upsertStockCore db s now).2 = true := by
  have h1 : ¬ s.price ≤ 0 := not_le.mpr h
  unfold upsertStockCore
  cases hf : lookupStock db s.symbol with
  | some e => simp [h1]
  | none => simp [h1]

lemma processValidated_counts (env : Env) (b i tot : Nat) (st : LoopState)
    (tk : TickerDetails) (cd md : Option Bar) :
    (processValidated env b i tot st tk cd md).writes + st.processed =
      (processValidated env b i tot st tk cd md).processed + st.writes := by
  simp only [processValidated]
  by_cases h : (normalizeBar cd).close.getD 0 ≤ 0
  · rw [if_pos h]
    omega
  · rw [if_neg h]
    have hw : (upsertStockCore st.stocks
        (convertToStockData tk (some (normalizeBar cd))
          (some (monthlyOnlyBar ((md.bind Bar.close).getD 0))) env.now) env.now).2 = true := by
      refine upsertStockCore_writes_true _ _ _ ?_
      have hpr : (convertToStockData tk (some (normalizeBar cd))
          (some (monthlyOnlyBar ((md.bind Bar.close).getD 0))) env.now).price =
          (normalizeBar cd).close.getD 0 := rfl
      rw [hpr]
      exact lt_of_not_le h
    rw [hw]
    have hone : (if (true : Bool) = true then (1 : Nat) else 0) = 1 := rfl
    rw [hone]
    dsimp only
    omega

lemma processAfterCurrent_counts (env : Env) (b i tot : Nat) (st : LoopState)
    (tk : TickerDetails) (cd : Option Bar) (md : Nat) :
    (processAfterCurrent env b i tot st tk cd md).writes + st.processed =
      (processAfterCurrent env b i tot st tk cd md).processed + st.writes := by
  simp only [processAfterCurrent]
  cases h : env.dailyData tk.ticker md with
  | err m =>
    have hc := handleSymbolError_counts
      { st with
        sleeps := st.sleeps ++ [30000]
        providerCalls := st.providerCalls + 1 } tk.ticker m
    dsimp only at hc ⊢
    omega
  | ok bar =>
    dsimp only
    exact processValidated_counts env b i tot _ tk cd (some bar)
  | notFound =>
    dsimp only
    exact processValidated_counts env b i tot _ tk cd none

lemma processOneSymbol_counts (env : Env) (b i tot : Nat) (st : LoopState)
    (tk : TickerDetails) :
    (processOneSymbol env b i tot st tk).writes + st.processed =
      (processOneSymbol env b i tot st tk).processed + st.writes := by
  by_cases htk : tk.ticker = ""
  · simp only [processOneSymbol, if_pos htk]
    omega
  · simp only [processOneSymbol, if_neg htk]
    cases h : env.dailyData tk.ticker (getMostRecentTradingDay env st.history) with
    | err m =>
      have hc := handleSymbolError_counts
        { st with providerCalls := st.providerCalls + 1 } tk.ticker m
      dsimp only at hc ⊢
      omega
    | ok bar =>
      dsimp only
      exact processAfterCurrent_counts env b i tot _ tk (some bar) _
    | notFound =>
      dsimp only
      exact processAfterCurrent_counts env b i tot _ tk none _

lemma processSymbols_counts (env : Env) (b tot : Nat) :
    ∀ (ts : List TickerDetails) (i : Nat) (st : LoopState),
      (processSymbols env b tot i ts st).writes + st.processed =
        (processSymbols env b tot i ts st).processed + st.writes
  | [], _, st => by simp [processSymbols, Nat.add_comm]
  | t :: rest, i, st => by
    have h1 := processOneSymbol_counts env b i tot st t
    have h2 := processSymbols_counts env b tot rest (i + 1)
      (processOneSymbol env b i tot st t)
    simp only [processSymbols]
    omega

/-- Every terminating path of a run whose pre-loop external calls do not
throw returns a response with `success = true` whose `processed` equals the
number of stock-document writes performed by that very run. -/
lemma updateStocks_ok_of_no_throw (env : Env) (st : ServiceState)
    (batchNumber totalBatches : Nat) (forceUpdate : Bool)
    (hplan : env.planThrow = none) :
    ∃ r, (updateStocks env st batchNumber totalBatches forceUpdate).result =
        RunResult.ok r ∧ r.success = true ∧
        r.processed = (updateStocks env st batchNumber totalBatches forceUpdate).writes := by
  have key : ∀ (tot : Nat) (ts : List TickerDetails) (ls0 : LoopState),
      ls0.processed = 0 → ls0.writes = 0 →
      (processSymbols env batchNumber tot 0 ts ls0).processed =
        (processSymbols env batchNumber tot 0 ts ls0).writes := by
    intro tot ts ls0 h1 h2
    have := processSymbols_counts env batchNumber tot ts 0 ls0
    omega
  simp only [updateStocks, hplan]
  split
  · exact ⟨_, rfl, rfl, rfl⟩
  · split
    · exact ⟨_, rfl, rfl, rfl⟩
    · exact ⟨_, rfl, rfl, key _ _ _ rfl rfl⟩

/-! ## C9: a checkpoint-write failure never fails the run -/

/-- C9: whatever the state of the checkpoint store (`update_history`
unavailable, or its index/insert raising — both absorbed by
`saveUpdateInfo`), a run whose pre-loop external calls do not throw returns
`success = true`, and its `processed` count is exactly the number of stock
records the run itself persisted. -/
theorem updateStocks_checkpoint_failure_harmless (env : Env) (st : ServiceState)
    (batchNumber totalBatches : Nat) (forceUpdate : Bool)
    (hplan : env.planThrow = none) :
    ∃ r, (updateStocks env st batchNumber totalBatches forceUpdate).result =
        RunResult.ok r ∧ r.success = true ∧
        r.processed = (updateStocks env st batchNumber totalBatches forceUpdate).writes :=
  updateStocks_ok_of_no_throw env st batchNumber totalBatches forceUpdate hplan

/-- Witness for C9: the checkpoint insert raises, yet the run still reports
success, one processed symbol, one persisted write, and the checkpoint log
stays empty. -/
theorem updateStocks_checkpoint_failure_harmless_witness :
    ({ envBase with historyInsertFails := true } : Env).historyInsertFails = true ∧
      ({ envBase with historyInsertFails := true } : Env).planThrow = none ∧
      (updateStocks { envBase with historyInsertFails := true } st0 1 16 false).writes = 1 ∧
      (updateStocks { envBase with historyInsertFails := true } st0 1 16
        false).final.history = [] ∧
      ∃ r, (updateStocks { envBase with historyInsertFails := true } st0 1 16
          false).result = RunResult.ok r ∧ r.success = true ∧
        r.processed = (updateStocks { envBase with historyInsertFails := true } st0 1 16
          false).writes :=
  ⟨rfl, rfl, by decide, by decide,
    updateStocks_checkpoint_failure_harmless { envBase with historyInsertFails := true }
      st0 1 16 false rfl⟩

/-! ## C8: checkpoint forward-shift to the next trading day -/

lemma nextAvailableTradingDay_spec (d : Nat) :
    isWeekend (getNextAvailableTradingDay d) = false ∧
      d < getNextAvailableTradingDay d ∧
      ∀ k, d < k → k < getNextAvailableTradingDay d → isWeekend k = true := by
  rcases (by omega :
      (d + 1) % 7 = 0 ∨ (d + 1) % 7 = 1 ∨ (d + 1) % 7 = 2 ∨ (d + 1) % 7 = 3 ∨
        (d + 1) % 7 = 4 ∨ (d + 1) % 7 = 5 ∨ (d + 1) % 7 = 6) with
    h | h | h | h | h | h | h
  · -- day after the checkpoint is a Sunday: land on the Monday two days out
    have h2 : (d + 2) % 7 = 1 := by omega
    have e : getNextAvailableTradingDay d = d + 2 := by
      simp [getNextAvailableTradingDay, skipWeekendFwd, isWeekend, h, h2]
    rw [e]
    refine ⟨by simp [isWeekend, h2], by omega, ?_⟩
    intro k hk1 hk2
    have hk : k = d + 1 := by omega
    subst hk
    simp [isWeekend, h]
  · have e : getNextAvailableTradingDay d = d + 1 := by
      simp [getNextAvailableTradingDay, skipWeekendFwd, isWeekend, h]
    rw [e]
    exact ⟨by simp [isWeekend, h], by omega, fun k hk1 hk2 => absurd (by omega : False) id⟩
  · have e : getNextAvailableTradingDay d = d + 1 := by
      simp [getNextAvailableTradingDay, skipWeekendFwd, isWeekend, h]
    rw [e]
    exact ⟨by simp [isWeekend, h], by omega, fun k hk1 hk2 => absurd (by omega : False) id⟩
  · have e : getNextAvailableTradingDay d = d + 1 := by
      simp [getNextAvailableTradingDay, skipWeekendFwd, isWeekend, h]
    rw [e]
    exact ⟨by simp [isWeekend, h], by omega, fun k hk1 hk2 => absurd (by omega : False) id⟩
  · have e : getNextAvailableTradingDay d = d + 1 := by
      simp [getNextAvailableTradingDay, skipWeekendFwd, isWeekend, h]
    rw [e]
    exact ⟨by simp [isWeekend, h], by omega, fun k hk1 hk2 => absurd (by omega : False) id⟩
  · have e : getNextAvailableTradingDay d = d + 1 := by
      simp [getNextAvailableTradingDay, skipWeekendFwd, isWeekend, h]
    rw [e]
    exact ⟨by simp [isWeekend, h], by omega, fun k hk1 hk2 => absurd (by omega : False) id⟩
  · -- day after the checkpoint is a Saturday: land on the Monday three days out
    have h2 : (d + 2) % 7 = 0 := by omega
    have h3 : (d + 3) % 7 = 1 := by omega
    have e : getNextAvailableTradingDay d = d + 3 := by
      simp [getNextAvailableTradingDay, skipWeekendFwd, isWeekend, h, h2, h3]
    rw [e]
    refine ⟨by simp [isWeekend, h3], by omega, ?_⟩
    intro k hk1 hk2
    rcases (by omega : k = d + 1 ∨ k = d + 2) with hk | hk <;> subst hk
    · simp [isWeekend, h]
    · simp [isWeekend, h2]

/-- C8: with a checkpoint whose `lastUpdateDate` is today or yesterday, the
chosen current date is the nearest weekday strictly after the checkpoint
date; with a stale checkpoint, or none at all, the original
most-recent-trading-day fallback is used. -/
theorem getMostRecentTradingDay_spec (env : Env) (u : UpdateInfo)
    (rest : List UpdateInfo) (havail : env.historyDbAvailable = true) :
    ((u.lastUpdateDate = env.now ∨ u.lastUpdateDate = env.now - 1) →
        isWeekend (getMostRecentTradingDay env (u :: rest)) = false ∧
          u.lastUpdateDate < getMostRecentTradingDay env (u :: rest) ∧
          ∀ k, u.lastUpdateDate < k → k < getMostRecentTradingDay env (u :: rest) →
            isWeekend k = true) ∧
      (¬ (u.lastUpdateDate = env.now ∨ u.lastUpdateDate = env.now - 1) →
        getMostRecentTradingDay env (u :: rest) =
          getOriginalMostRecentTradingDay env.now) ∧
      getMostRecentTradingDay env [] = getOriginalMostRecentTradingDay env.now := by
  have hhead : getLastUpdateInfo env (u :: rest) = some u := by
    simp [getLastUpdateInfo, havail]
  refine ⟨?_, ?_, ?_⟩
  · intro hrec
    have he : getMostRecentTradingDay env (u :: rest) =
        getNextAvailableTradingDay u.lastUpdateDate := by
      unfold getMostRecentTradingDay
      rw [hhead]
      dsimp only
      rw [if_pos hrec]
    rw [he]
    exact nextAvailableTradingDay_spec u.lastUpdateDate
  · intro hne
    unfold getMostRecentTradingDay
    rw [hhead]
    dsimp only
    rw [if_neg hne]
  · simp [getMostRecentTradingDay, getLastUpdateInfo]

/-- Witness for C8: a checkpoint dated today (`now = 100`, a Tuesday in the
day-number convention) shifts to day 101, the Wednesday right after it. -/
theorem getMostRecentTradingDay_spec_witness :
    envBase.historyDbAvailable = true ∧
      (((⟨100, 68, 50, 1⟩ : UpdateInfo).lastUpdateDate = envBase.now ∨
          (⟨100, 68, 50, 1⟩ : UpdateInfo).lastUpdateDate = envBase.now - 1) →
        isWeekend (getMostRecentTradingDay envBase [⟨100, 68, 50, 1⟩]) = false ∧
          (⟨100, 68, 50, 1⟩ : UpdateInfo).lastUpdateDate <
            getMostRecentTradingDay envBase [⟨100, 68, 50, 1⟩] ∧
          ∀ k, (⟨100, 68, 50, 1⟩ : UpdateInfo).lastUpdateDate < k →
            k < getMostRecentTradingDay envBase [⟨100, 68, 50, 1⟩] →
            isWeekend k = true) ∧
      getMostRecentTradingDay envBase [⟨100, 68, 50, 1⟩] = 101 :=
  ⟨rfl, (getMostRecentTradingDay_spec envBase ⟨100, 68, 50, 1⟩ [] rfl).1, by decide⟩

/-! ## C6: the batch planner's indices -/

lemma targetSymbols_length : getTargetSymbols.length = 122 := by decide

/-- Counterexample to C6 as stated: for batch 16 the code computes
`endIndex = min(128, 330) = 128`, not `min(128, universe length) = 122`
(the deduplicated universe has 122 symbols, well under the 330 cap). -/
theorem calculateBatchInfo_universe_cap_cex :
    (calculateBatchInfo 16 16).startIndex = 120 ∧
      (calculateBatchInfo 16 16).endIndex = 128 ∧
      getTargetSymbols.length = 122 ∧
      (calculateBatchInfo 16 16).endIndex ≠
        min ((calculateBatchInfo 16 16).startIndex + 8) getTargetSymbols.length := by
  refine ⟨rfl, rfl, targetSymbols_length, ?_⟩
  rw [targetSymbols_length]
  decide

/-- C6 amended: `startIndex = (batchNumber − 1) × 8` and
`endIndex = min(startIndex + 8, 330)` — the 330 is the fixed universe cap,
not the deduplicated universe length — and the batch's symbols are exactly
the slice of the universe from `startIndex` to `endIndex`, which coincides
with the slice capped at the universe length because slicing clamps. -/
theorem calculateBatchInfo_spec (batchNumber totalBatches : Nat)
    (hb : 1 ≤ batchNumber) :
    (calculateBatchInfo batchNumber totalBatches).startIndex = (batchNumber - 1) * 8 ∧
      (calculateBatchInfo batchNumber totalBatches).endIndex =
        min ((batchNumber - 1) * 8 + 8) 330 ∧
      plannedBatchSymbols batchNumber totalBatches =
        listSlice getTargetSymbols ((batchNumber - 1) * 8)
          (min ((batchNumber - 1) * 8 + 8) 330) ∧
      plannedBatchSymbols batchNumber totalBatches =
        listSlice getTargetSymbols ((batchNumber - 1) * 8)
          (min ((batchNumber - 1) * 8 + 8) getTargetSymbols.length) := by
  refine ⟨rfl, rfl, rfl, ?_⟩
  have hl : getTargetSymbols.length = 122 := targetSymbols_length
  show listSlice getTargetSymbols ((batchNumber - 1) * 8)
      (min ((batchNumber - 1) * 8 + 8) 330) = _
  unfold listSlice
  rw [hl]
  rcases le_or_lt ((batchNumber - 1) * 8 + 8) 122 with hle | hlt
  · have e1 : min ((batchNumber - 1) * 8 + 8) 330 = (batchNumber - 1) * 8 + 8 := by omega
    have e2 : min ((batchNumber - 1) * 8 + 8) 122 = (batchNumber - 1) * 8 + 8 := by omega
    rw [e1, e2]
  · have hlen : (getTargetSymbols.drop ((batchNumber - 1) * 8)).length ≤
        min ((batchNumber - 1) * 8 + 8) 330 - (batchNumber - 1) * 8 := by
      rw [List.length_drop, hl]
      omega
    have hlen2 : (getTargetSymbols.drop ((batchNumber - 1) * 8)).length ≤
        min ((batchNumber - 1) * 8 + 8) 122 - (batchNumber - 1) * 8 := by
      rw [List.length_drop, hl]
      omega
    rw [List.take_of_length_le hlen, List.take_of_length_le hlen2]

/-- Witness for the amended C6 at batch 16, where the two end formulas
differ but the slices coincide. -/
theorem calculateBatchInfo_spec_witness :
    1 ≤ 16 ∧
      ((calculateBatchInfo 16 16).startIndex = (16 - 1) * 8 ∧
        (calculateBatchInfo 16 16).endIndex = min ((16 - 1) * 8 + 8) 330 ∧
        plannedBatchSymbols 16 16 =
          listSlice getTargetSymbols ((16 - 1) * 8) (min ((16 - 1) * 8 + 8) 330) ∧
        plannedBatchSymbols 16 16 =
          listSlice getTargetSymbols ((16 - 1) * 8)
            (min ((16 - 1) * 8 + 8) getTargetSymbols.length)) :=
  ⟨by decide, calculateBatchInfo_spec 16 16 (by decide)⟩

/-! ## C4: rate-limit handling in the per-symbol loop -/

lemma handleSymbolError_rate_limited (st : LoopState) (sym m : String)
    (h403 : strContains m kw403 = false)
    (hauth : strContains m kwNotAuthorized = false)
    (h429 : strContains m kw429 = true ∨ strContains m kwTooManyRequests = true) :
    handleSymbolError st sym m =
      { st with
        sleeps := st.sleeps ++ [30000]
        errors := st.errors ++ [sym ++ rateLimitSuffix] } := by
  rcases h429 with h | h
  · simp [handleSymbolError, h403, hauth, h]
  · simp [handleSymbolError, h403, hauth, h]

/-- Message used by the C4 counterexample: it contains both an authorization
marker and the rate-limit markers. -/
def rlBothMsg : String := "NOT_AUTHORIZED 429 Too Many Requests"

def envRLBoth : Env := { envBase with dailyData := fun _ _ => .err rlBothMsg }

/-- Counterexample to C4 as stated: the provider error message contains
'429' and 'Too Many Requests', one symbol (AAPL) is processed and raises it,
yet the run records no error at all — the `'403'`/`'NOT_AUTHORIZED'` check
runs first and silently skips the symbol, so no rate-limit error string is
appended and no cooldown happens. -/
theorem updateStocks_rate_limit_cex :
    strContains rlBothMsg kw429 = true ∧
      strContains rlBothMsg kwTooManyRequests = true ∧
      envRLBoth.dailyData tickerAAPL.ticker (getMostRecentTradingDay envRLBoth []) =
        FetchResult.err rlBothMsg ∧
      (getTickersBatch envRLBoth (plannedBatchSymbols 1 16)).1 = [tickerAAPL] ∧
      (updateStocks envRLBoth st0 1 16 false).result =
        RunResult.ok { success := true, message := processedMsg 1 16, processed := 0,
                       nextBatch := some 2, totalBatches := 16, errors := [] } :=
  ⟨by decide, by decide, rfl, by decide, by decide⟩

/-- C4 amended: when processing one symbol raises an error whose message
contains '429' or 'Too Many Requests' and does not contain '403' or
'NOT_AUTHORIZED', the loop appends the fixed 30 s cooldown to its sleeps and
exactly one rate-limit error string for that symbol, changes nothing else
(no upsert, no processed increment), and continues with all remaining
symbols; any run whose pre-loop external calls do not throw still returns
`success = true`. -/
theorem processSymbols_rate_limited (env : Env) (b tot i : Nat) (st : LoopState)
    (tk : TickerDetails) (rest : List TickerDetails) (m : String)
    (htk : ¬ tk.ticker = "")
    (h403 : strContains m kw403 = false)
    (hauth : strContains m kwNotAuthorized = false)
    (h429 : strContains m kw429 = true ∨ strContains m kwTooManyRequests = true)
    (hraise :
      env.dailyData tk.ticker (getMostRecentTradingDay env st.history) =
          FetchResult.err m ∨
        ((∃ bar, env.dailyData tk.ticker (getMostRecentTradingDay env st.history) =
              FetchResult.ok bar) ∨
            env.dailyData tk.ticker (getMostRecentTradingDay env st.history) =
              FetchResult.notFound) ∧
          env.dailyData tk.ticker (getMonthlyComparisonDate env st.history) =
            FetchResult.err m) :
    (∃ pc sl, processOneSymbol env b i tot st tk =
        { st with
          providerCalls := pc
          sleeps := st.sleeps ++ sl ++ [30000]
          errors := st.errors ++ [tk.ticker ++ rateLimitSuffix] }) ∧
      processSymbols env b tot i (tk :: rest) st =
        processSymbols env b tot (i + 1) rest (processOneSymbol env b i tot st tk) ∧
      (∀ (st2 : ServiceState) (b2 t2 : Nat) (f2 : Bool), env.planThrow = none →
        ∃ r, (updateStocks env st2 b2 t2 f2).result = RunResult.ok r ∧
          r.success = true) := by
  refine ⟨?_, rfl, ?_⟩
  · rcases hraise with hcur | ⟨hok, hmon⟩
    · refine ⟨st.providerCalls + 1, [], ?_⟩
      simp only [processOneSymbol, if_neg htk]
      rw [hcur]
      dsimp only
      rw [handleSymbolError_rate_limited _ _ _ h403 hauth h429]
      simp
    · have step : ∀ cd : Option Bar,
          processAfterCurrent env b i tot
              { st with providerCalls := st.providerCalls + 1 } tk cd
              (getMonthlyComparisonDate env st.history) =
            { st with
              providerCalls := st.providerCalls + 2
              sleeps := st.sleeps ++ [30000] ++ [30000]
              errors := st.errors ++ [tk.ticker ++ rateLimitSuffix] } := by
        intro cd
        simp only [processAfterCurrent]
        rw [hmon]
        dsimp only
        rw [handleSymbolError_rate_limited _ _ _ h403 hauth h429]
      refine ⟨st.providerCalls + 2, [30000], ?_⟩
      rcases hok with ⟨bar, hbar⟩ | hnf
      · simp only [processOneSymbol, if_neg htk]
        rw [hbar]
        dsimp only
        exact step (some bar)
      · simp only [processOneSymbol, if_neg htk]
        rw [hnf]
        dsimp only
        exact step none
  · intro st2 b2 t2 f2 hplan
    obtain ⟨r, hr, hs, _⟩ := updateStocks_ok_of_no_throw env st2 b2 t2 f2 hplan
    exact ⟨r, hr, hs⟩

/-- Message used by the amended-C4 witness: a pure rate-limit message. -/
def rlPureMsg : String := "429 Too Many Requests"

def envRLPure : Env := { envBase with dailyData := fun _ _ => .err rlPureMsg }

def lsW : LoopState :=
  { stocks := [], history := [], errors := [], processed := 0, writes := 0,
    providerCalls := 0, sleeps := [] }

/-- Witness for the amended C4: AAPL raises a pure 429 message. -/
theorem processSymbols_rate_limited_witness :
    (¬ tickerAAPL.ticker = "") ∧ strContains rlPureMsg kw403 = false ∧
      strContains rlPureMsg kw429 = true ∧
      ((∃ pc sl, processOneSymbol envRLPure 1 0 1 lsW tickerAAPL =
          { lsW with
            providerCalls := pc
            sleeps := lsW.sleeps ++ sl ++ [30000]
            errors := lsW.errors ++ [tickerAAPL.ticker ++ rateLimitSuffix] }) ∧
        processSymbols envRLPure 1 1 0 [tickerAAPL] lsW =
          processSymbols envRLPure 1 1 1 []
            (processOneSymbol envRLPure 1 0 1 lsW tickerAAPL) ∧
        (∀ (st2 : ServiceState) (b2 t2 : Nat) (f2 : Bool), envRLPure.planThrow = none →
          ∃ r, (updateStocks envRLPure st2 b2 t2 f2).result = RunResult.ok r ∧
            r.success = true)) :=
  ⟨by decide, by decide, by decide,
    processSymbols_rate_limited envRLPure 1 1 0 lsW tickerAAPL [] rlPureMsg
      (by decide) (by decide) (by decide) (Or.inl (by decide)) (Or.inl rfl)⟩

/-! ## C7: a NotFound monthly bar does not skip the symbol -/

/-- Counterexample to C7 as stated: AAPL's current-day bar is valid
(close 150) while its comparison-day (monthly) bar is NotFound, yet the run
upserts AAPL and counts it — `processed = 1` and one write — instead of
skipping it. -/
theorem updateStocks_monthly_not_found_cex :
    envBase.dailyData tickerAAPL.ticker (getMostRecentTradingDay envBase []) =
        FetchResult.ok goodBar ∧
      envBase.dailyData tickerAAPL.ticker (getMonthlyComparisonDate envBase []) =
        FetchResult.notFound ∧
      (updateStocks envBase st0 1 16 false).result =
        RunResult.ok { success := true, message := processedMsg 1 16, processed := 1,
                       nextBatch := some 2, totalBatches := 16, errors := [] } ∧
      (updateStocks envBase st0 1 16 false).writes = 1 :=
  ⟨by decide, by decide, by decide, by decide⟩

/-- C7 amended: only the current-day bar is validated. A symbol whose
current-day bar is `ok` with positive close but whose comparison-day
(monthly) bar is NotFound is still upserted and counted, with the monthly
close taken as 0 — so `monthlyChanges = price` and
`monthlyChangesPercentage = 0`; a symbol whose current-day bar is NotFound
is skipped (not upserted, not counted), whatever the monthly fetch does. -/
theorem processOneSymbol_monthly_not_found (env : Env) (b i tot : Nat)
    (st : LoopState) (tk : TickerDetails) (htk : ¬ tk.ticker = "") :
    (∀ cbar : Bar,
      env.dailyData tk.ticker (getMostRecentTradingDay env st.history) =
          FetchResult.ok cbar →
      0 < cbar.close.getD 0 →
      env.dailyData tk.ticker (getMonthlyComparisonDate env st.history) =
          FetchResult.notFound →
      processOneSymbol env b i tot st tk =
        { st with
          providerCalls := st.providerCalls + 2
          sleeps := st.sleeps ++ [30000] ++
            (if 0 < calculateAdaptiveDelay b i tot (env.jitterA i)
              then [calculateAdaptiveDelay b i tot (env.jitterA i)] else [])
          stocks := (upsertStockCore st.stocks
            (convertToStockData tk (some (normalizeBar (some cbar)))
              (some (monthlyOnlyBar 0)) env.now) env.now).1
          writes := st.writes + 1
          processed := st.processed + 1 } ∧
        (convertToStockData tk (some (normalizeBar (some cbar)))
          (some (monthlyOnlyBar 0)) env.now).price = cbar.close.getD 0 ∧
        (convertToStockData tk (some (normalizeBar (some cbar)))
          (some (monthlyOnlyBar 0)) env.now).monthlyChanges =
          (convertToStockData tk (some (normalizeBar (some cbar)))
            (some (monthlyOnlyBar 0)) env.now).price ∧
        (convertToStockData tk (some (normalizeBar (some cbar)))
          (some (monthlyOnlyBar 0)) env.now).monthlyChangesPercentage = 0) ∧
      (env.dailyData tk.ticker (getMostRecentTradingDay env st.history) =
          FetchResult.notFound →
        (processOneSymbol env b i tot st tk).processed = st.processed ∧
          (processOneSymbol env b i tot st tk).stocks = st.stocks ∧
          (processOneSymbol env b i tot st tk).writes = st.writes) := by
  constructor
  · intro cbar hcur hpos hmon
    have hval : ¬ (normalizeBar (some cbar)).close.getD 0 ≤ 0 := not_le.mpr hpos
    have hw : (upsertStockCore st.stocks
        (convertToStockData tk (some (normalizeBar (some cbar)))
          (some (monthlyOnlyBar 0)) env.now) env.now).2 = true :=
      upsertStockCore_writes_true _ _ _ hpos
    refine ⟨?_, rfl, ?_, rfl⟩
    · simp only [processOneSymbol, if_neg htk]
      rw [hcur]
      dsimp only
      simp only [processAfterCurrent]
      rw [hmon]
      dsimp only
      simp only [processValidated]
      rw [if_neg hval]
      rw [show ((none : Option Bar).bind Bar.close).getD 0 = (0 : ℚ) from rfl]
      rw [hw]
      have hone : (if (true : Bool) = true then (1 : Nat) else 0) = 1 := rfl
      rw [hone]
    · show cbar.close.getD 0 - 0 = cbar.close.getD 0
      exact sub_zero _
  · intro hnf
    have hskip : ∀ cd : Option Bar, cd = none →
        (processAfterCurrent env b i tot
            { st with providerCalls := st.providerCalls + 1 } tk cd
            (getMonthlyComparisonDate env st.history)).processed = st.processed ∧
          (processAfterCurrent env b i tot
            { st with providerCalls := st.providerCalls + 1 } tk cd
            (getMonthlyComparisonDate env st.history)).stocks = st.stocks ∧
          (processAfterCurrent env b i tot
            { st with providerCalls := st.providerCalls + 1 } tk cd
            (getMonthlyComparisonDate env st.history)).writes = st.writes := by
      intro cd hcd
      subst hcd
      simp only [processAfterCurrent]
      cases hm : env.dailyData tk.ticker (getMonthlyComparisonDate env st.history) with
      | err m2 =>
        have hc := handleSymbolError_counts
          { st with
            providerCalls := st.providerCalls + 1 + 1
            sleeps := st.sleeps ++ [30000] } tk.ticker m2
        dsimp only at hc ⊢
        exact ⟨hc.1, hc.2.2.1, hc.2.1⟩
      | ok bar2 =>
        dsimp only
        simp only [processValidated]
        have hz : (normalizeBar none).close.getD 0 ≤ (0 : ℚ) := le_refl 0
        rw [if_pos hz]
        exact ⟨rfl, rfl, rfl⟩
      | notFound =>
        dsimp only
        simp only [processValidated]
        have hz : (normalizeBar none).close.getD 0 ≤ (0 : ℚ) := le_refl 0
        rw [if_pos hz]
        exact ⟨rfl, rfl, rfl⟩
    simp only [processOneSymbol, if_neg htk]
    rw [hnf]
    dsimp only
    exact hskip none rfl

/-- Witness for the amended C7: the same concrete run as the counterexample,
at the loop-step level. -/
theorem processOneSymbol_monthly_not_found_witness :
    (¬ tickerAAPL.ticker = "") ∧
      envBase.dailyData tickerAAPL.ticker (getMostRecentTradingDay envBase lsW.history) =
        FetchResult.ok goodBar ∧
      (0 : ℚ) < goodBar.close.getD 0 ∧
      envBase.dailyData tickerAAPL.ticker (getMonthlyComparisonDate envBase lsW.history) =
        FetchResult.notFound ∧
      (processOneSymbol envBase 1 0 1 lsW tickerAAPL =
        { lsW with
          providerCalls := lsW.providerCalls + 2
          sleeps := lsW.sleeps ++ [30000] ++
            (if 0 < calculateAdaptiveDelay 1 0 1 (envBase.jitterA 0)
              then [calculateAdaptiveDelay 1 0 1 (envBase.jitterA 0)] else [])
          stocks := (upsertStockCore lsW.stocks
            (convertToStockData tickerAAPL (some (normalizeBar (some goodBar)))
              (some (monthlyOnlyBar 0)) envBase.now) envBase.now).1
          writes := lsW.writes + 1
          processed := lsW.processed + 1 } ∧
        (convertToStockData tickerAAPL (some (normalizeBar (some goodBar)))
          (some (monthlyOnlyBar 0)) envBase.now).price = goodBar.close.getD 0 ∧
        (convertToStockData tickerAAPL (some (normalizeBar (some goodBar)))
          (some (monthlyOnlyBar 0)) envBase.now).monthlyChanges =
          (convertToStockData tickerAAPL (some (normalizeBar (some goodBar)))
            (some (monthlyOnlyBar 0)) envBase.now).price ∧
        (convertToStockData tickerAAPL (some (normalizeBar (some goodBar)))
          (some (monthlyOnlyBar 0)) envBase.now).monthlyChangesPercentage = 0) :=
  ⟨by decide, by decide, by decide, by decide,
    (processOneSymbol_monthly_not_found envBase 1 0 1 lsW tickerAAPL (by decide)).1
      goodBar (by decide) (by decide) (by decide)⟩

end StockPipeline
